import Mathlib

set_option maxHeartbeats 1000000

/-!
Verification of the sentrysyslog module: RFC 5424 syslog lines are parsed and
forwarded to Sentry as logging records (events or breadcrumbs), and a
pre-transmission callback relocates syslog fields inside the outbound payload.

The embedding below mirrors the Python module function by function.  Python
dictionaries are association lists of string keys and JSON-like values;
dictionary access that can raise KeyError is modelled with the Except monad;
the single logging emission performed by a call is modelled by returning the
list of records emitted.
-/

/-- JSON-like values: the contents of parsed syslog dictionaries and of the
fields of outbound Sentry payloads. -/
inductive Value where
  | vNull : Value
  | vBool : Bool → Value
  | vInt : Int → Value
  | vStr : String → Value
  | vList : List Value → Value
  | vDict : List (String × Value) → Value

/-- Python logging level constants (from the logging module). -/
def CRITICAL : Nat := 50

/-- Python logging level ERROR. -/
def ERROR : Nat := 40

/-- Python logging level WARNING. -/
def WARNING : Nat := 30

/-- Python logging level INFO. -/
def INFO : Nat := 20

/-- Python logging level DEBUG. -/
def DEBUG : Nat := 10

/-- The eight RFC 5424 syslog severities, as produced by the parser
collaborator. -/
inductive SyslogSeverity where
  | emerg | alert | crit | err | warning | notice | info | debug
deriving DecidableEq

/-- The SyslogSeverityToPythonLevel table of the module: each syslog severity
name is assigned a Python logging level. -/
def SyslogSeverityToPythonLevel : SyslogSeverity → Nat
  | .emerg => CRITICAL
  | .alert => CRITICAL
  | .crit => CRITICAL
  | .err => ERROR
  | .warning => WARNING
  | .notice => WARNING
  | .info => INFO
  | .debug => DEBUG

/-- A parsed syslog message: the severity attribute, the msg attribute and the
dictionary returned by as_dict. -/
structure SyslogMessage where
  severity : SyslogSeverity
  msg : String
  dict : List (String × Value)

/-- A Python logging.Logger, reduced to the attribute the module uses. -/
structure Logger where
  name : String

/-- The module logger: logging.getLogger with the module name, which is
"sentrysyslog". -/
def logger : Logger := ⟨"sentrysyslog"⟩

/-- The truth value of the Python test checking that a value is None, an
empty dict, or an empty list. -/
def Value.isEmptySentinel : Value → Bool
  | .vNull => true
  | .vDict [] => true
  | .vList [] => true
  | _ => false

/-- The key set excluded from the field projection in log_syslog_line. -/
def excluded_keys : List String :=
  ["facility", "appname", "severity", "msg", "version"]

/-- The syslog_fields dictionary comprehension of log_syslog_line: keep an
entry when its value is not None, not an empty dict, not an empty list, and
its key is not among the excluded keys. -/
def syslog_fields (d : List (String × Value)) : List (String × Value) :=
  d.filter (fun kv => !(kv.2.isEmptySentinel) && !(excluded_keys.contains kv.1))

/-- One emitted Python logging record: the level, the message template, the
positional args tuple and the optional extra keyword mapping. -/
structure LogRecord where
  level : Nat
  msg : String
  args : List (List (String × Value))
  extra : Option (List (String × Value))

/-- log_syslog_line: parse the line via the parser collaborator, classify the
severity, build the field projection, choose the event or breadcrumb shape and
emit one logging record.  The records emitted by the call are returned in a
list next to the parsed message; a parse failure propagates as the error. -/
def log_syslog_line {ε : Type} (parse : String → Except ε SyslogMessage)
    (syslog_line : String) (event_level : Nat) :
    Except ε (List LogRecord × SyslogMessage) :=
  match parse syslog_line with
  | .error e => .error e
  | .ok syslog_msg =>
    let level := SyslogSeverityToPythonLevel syslog_msg.severity
    let fields := syslog_fields syslog_msg.dict
    if level ≥ event_level then
      .ok ([⟨level, syslog_msg.msg, [fields], none⟩], syslog_msg)
    else
      .ok ([⟨level, syslog_msg.msg, [], some fields⟩], syslog_msg)

/-- Python `s[:-1]`: the string without its final character. -/
def stripLast (s : String) : String := ⟨s.data.dropLast⟩

/-- What one loop iteration of run leaves behind: either the records forwarded
for a line, or the internal diagnostic report (logger.exception) carrying the
offending raw line. -/
inductive Emitted where
  | forwarded : LogRecord → Emitted
  | diagnostic : String → Emitted

/-- run: iterate the input lines; on each, call log_syslog_line on the line
without its final character; an exception is caught and logged as one
diagnostic record carrying the raw line, and the loop continues. -/
def run {ε : Type} (parse : String → Except ε SyslogMessage)
    (input_file : List String) (event_level : Nat) : List Emitted :=
  match input_file with
  | [] => []
  | syslog_line :: rest =>
    (match log_syslog_line parse (stripLast syslog_line) event_level with
     | .ok (recs, _) => recs.map Emitted.forwarded
     | .error _ => [Emitted.diagnostic syslog_line]) ++ run parse rest event_level

/-- Python exceptions raised by dictionary access in the callback. -/
inductive PyErr where
  | keyError : String → PyErr
deriving DecidableEq

/-- Reading a dictionary key: KeyError when the key is absent. -/
def getKey {α : Type} (o : Option α) (k : String) : Except PyErr α :=
  match o with
  | some v => .ok v
  | none => .error (.keyError k)

/-- Association-list lookup with string keys, first match. -/
def lookupK (k : String) : List (String × Value) → Option Value
  | [] => none
  | kv :: rest => if kv.1 = k then some kv.2 else lookupK k rest

/-- Association-list removal of a key. -/
def eraseK (k : String) : List (String × Value) → List (String × Value)
  | [] => []
  | kv :: rest => if kv.1 = k then eraseK k rest else kv :: eraseK k rest

/-- Python dict.pop with a default: return the value stored at the key and the
dictionary without it, or the default and the unchanged dictionary. -/
def popD (k : String) (d : List (String × Value)) (dflt : Value) :
    Value × List (String × Value) :=
  match lookupK k d with
  | some v => (v, eraseK k d)
  | none => (dflt, d)

/-- One breadcrumb of the outbound payload: its own timestamp key, its data
mapping, and its remaining keys. -/
structure Breadcrumb where
  timestamp : Option Value
  data : Option (List (String × Value))
  rest : List (String × Value)

/-- The logentry mapping of the outbound payload. -/
structure LogEntry where
  message : Option Value
  params : Option (List (String × Value))
  rest : List (String × Value)

/-- The outbound Sentry event payload, split into the keys the callback
touches plus a bag of remaining keys. -/
structure Event where
  logger : Option String
  platform : Option Value
  server_name : Option Value
  timestamp : Option Value
  logentry : Option LogEntry
  breadcrumbs : Option (List Breadcrumb)
  rest : List (String × Value)

/-- The loop body of process_syslog_fields on one breadcrumb:
`breadcrumb["timestamp"] = breadcrumb["data"].pop("timestamp", breadcrumb["timestamp"])`. -/
def procBreadcrumb (breadcrumb : Breadcrumb) : Except PyErr Breadcrumb :=
  match breadcrumb.data with
  | none => .error (.keyError "data")
  | some data =>
    match breadcrumb.timestamp with
    | none => .error (.keyError "timestamp")
    | some timestamp =>
      let p := popD "timestamp" data timestamp
      .ok { breadcrumb with timestamp := some p.1, data := some p.2 }

/-- The breadcrumb loop of process_syslog_fields over the whole list. -/
def procBreadcrumbs : List Breadcrumb → Except PyErr (List Breadcrumb)
  | [] => .ok []
  | b :: rest =>
    match procBreadcrumb b with
    | .error e => .error e
    | .ok b' =>
      match procBreadcrumbs rest with
      | .error e => .error e
      | .ok rest' => .ok (b' :: rest')

/-- process_syslog_fields: the before_send callback.  Events whose logger is
the module logger pass through unchanged; otherwise platform is set to
"syslog", hostname is popped from logentry params into server_name, timestamp
is popped from logentry params into the top-level timestamp, and each
breadcrumb pops timestamp from its data into its own timestamp.  Every
dictionary access of the Python code that can raise KeyError is an error
case here. -/
def process_syslog_fields (event : Event) : Except PyErr Event :=
  match event.logger with
  | none => .error (.keyError "logger")
  | some lg =>
    if lg = logger.name then
      .ok event
    else
      match event.logentry with
      | none => .error (.keyError "logentry")
      | some logentry =>
        match logentry.params with
        | none => .error (.keyError "params")
        | some params =>
          match event.server_name with
          | none => .error (.keyError "server_name")
          | some server_name =>
            let p1 := popD "hostname" params server_name
            match event.timestamp with
            | none => .error (.keyError "timestamp")
            | some timestamp =>
              let p2 := popD "timestamp" p1.2 timestamp
              match event.breadcrumbs with
              | none =>
                .ok { event with
                      platform := some (.vStr "syslog"),
                      server_name := some p1.1,
                      timestamp := some p2.1,
                      logentry := some { logentry with params := some p2.2 } }
              | some breadcrumbs =>
                match procBreadcrumbs breadcrumbs with
                | .error e => .error e
                | .ok bcs =>
                  .ok { event with
                        platform := some (.vStr "syslog"),
                        server_name := some p1.1,
                        timestamp := some p2.1,
                        logentry := some { logentry with params := some p2.2 },
                        breadcrumbs := some bcs }

/-- The effect of the breadcrumb loop body on a well-shaped breadcrumb,
written as a total function. -/
def bcRewrite (b : Breadcrumb) : Breadcrumb :=
  { b with
    timestamp := some ((lookupK "timestamp" (b.data.getD [])).getD
      (b.timestamp.getD .vNull)),
    data := some (eraseK "timestamp" (b.data.getD [])) }

/-- Claim C3: the severity mapper is total and deterministic over the eight
RFC 5424 severities, with emerg, alert and crit collapsing to CRITICAL, err to
ERROR, warning and notice to WARNING, info to INFO and debug to DEBUG. -/
theorem severity_mapping_total :
    SyslogSeverityToPythonLevel .emerg = CRITICAL ∧
    SyslogSeverityToPythonLevel .alert = CRITICAL ∧
    SyslogSeverityToPythonLevel .crit = CRITICAL ∧
    SyslogSeverityToPythonLevel .err = ERROR ∧
    SyslogSeverityToPythonLevel .warning = WARNING ∧
    SyslogSeverityToPythonLevel .notice = WARNING ∧
    SyslogSeverityToPythonLevel .info = INFO ∧
    SyslogSeverityToPythonLevel .debug = DEBUG ∧
    ∀ s : SyslogSeverity, ∃! l : Nat, SyslogSeverityToPythonLevel s = l := by
  refine ⟨rfl, rfl, rfl, rfl, rfl, rfl, rfl, rfl, fun s => ⟨_, rfl, fun y hy => hy.symm⟩⟩

/-- Claim C1: a successfully parsed line makes log_syslog_line emit exactly
one logging record; at or above the threshold the projection travels as the
single positional parameter with no extra data, below it only as extra data
with no positional parameters, and never as both. -/
theorem log_syslog_line_emits_one_record {ε : Type}
    (parse : String → Except ε SyslogMessage) (line : String) (lvl : Nat)
    (m : SyslogMessage) (h : parse line = .ok m) :
    ∃ r : LogRecord, log_syslog_line parse line lvl = .ok ([r], m) ∧
      r.level = SyslogSeverityToPythonLevel m.severity ∧
      r.msg = m.msg ∧
      (r.level ≥ lvl → r.args = [syslog_fields m.dict] ∧ r.extra = none) ∧
      (r.level < lvl → r.args = [] ∧ r.extra = some (syslog_fields m.dict)) ∧
      ¬(r.args ≠ [] ∧ r.extra ≠ none) := by
  have hred : log_syslog_line parse line lvl =
      if SyslogSeverityToPythonLevel m.severity ≥ lvl then
        .ok ([⟨SyslogSeverityToPythonLevel m.severity, m.msg,
              [syslog_fields m.dict], none⟩], m)
      else
        .ok ([⟨SyslogSeverityToPythonLevel m.severity, m.msg,
              [], some (syslog_fields m.dict)⟩], m) := by
    unfold log_syslog_line
    rw [h]
  by_cases hc : SyslogSeverityToPythonLevel m.severity ≥ lvl
  · rw [if_pos hc] at hred
    exact ⟨_, hred, rfl, rfl, fun _ => ⟨rfl, rfl⟩,
      fun hlt => absurd hlt (not_lt.mpr hc), fun hx => hx.2 rfl⟩
  · rw [if_neg hc] at hred
    exact ⟨_, hred, rfl, rfl, fun hge => absurd hge hc,
      fun _ => ⟨rfl, rfl⟩, fun hx => hx.1 rfl⟩

/-- A critical-severity message used to exercise the event branch. -/
def mCrit : SyslogMessage := ⟨.crit, "boom", [("hostname", .vStr "h")]⟩

/-- A debug-severity message used to exercise the breadcrumb branch. -/
def mDebug : SyslogMessage := ⟨.debug, "dbg", [("hostname", .vStr "h")]⟩

/-- A parse function returning a fixed message. -/
def constParse (m : SyslogMessage) : String → Except Unit SyslogMessage :=
  fun _ => .ok m

theorem log_syslog_line_emits_one_record_witness :
    (∃ r : LogRecord, log_syslog_line (constParse mCrit) "x" ERROR = .ok ([r], mCrit) ∧
      r.args = [syslog_fields mCrit.dict] ∧ r.extra = none) ∧
    (∃ r : LogRecord, log_syslog_line (constParse mDebug) "x" ERROR = .ok ([r], mDebug) ∧
      r.args = [] ∧ r.extra = some (syslog_fields mDebug.dict)) := by
  constructor
  · obtain ⟨r, hok, hlvl, _, hge, _, _⟩ :=
      log_syslog_line_emits_one_record (constParse mCrit) "x" ERROR mCrit rfl
    have hr := hge (by rw [hlvl]; decide)
    exact ⟨r, hok, hr.1, hr.2⟩
  · obtain ⟨r, hok, hlvl, _, _, hlt, _⟩ :=
      log_syslog_line_emits_one_record (constParse mDebug) "x" ERROR mDebug rfl
    have hr := hlt (by rw [hlvl]; decide)
    exact ⟨r, hok, hr.1, hr.2⟩

/-- The sentinel test is true exactly on None, the empty dict and the empty
list. -/
theorem isEmptySentinel_eq_false (v : Value) :
    v.isEmptySentinel = false ↔
      v ≠ .vNull ∧ v ≠ .vDict [] ∧ v ≠ .vList [] := by
  cases v with
  | vNull => simp [Value.isEmptySentinel]
  | vBool b => simp [Value.isEmptySentinel]
  | vInt n => simp [Value.isEmptySentinel]
  | vStr s => simp [Value.isEmptySentinel]
  | vList l => cases l <;> simp [Value.isEmptySentinel]
  | vDict d => cases d <;> simp [Value.isEmptySentinel]

/-- Claim C4: the field projection of a parsed message drops exactly the five
reserved keys and the entries whose value is None, an empty mapping or an
empty sequence; every other entry of the parsed dictionary is retained. -/
theorem syslog_fields_projection (m : SyslogMessage) :
    (∀ k v, (k, v) ∈ syslog_fields m.dict →
      (k ≠ "facility" ∧ k ≠ "appname" ∧ k ≠ "severity" ∧ k ≠ "msg" ∧ k ≠ "version") ∧
      v ≠ .vNull ∧ v ≠ .vDict [] ∧ v ≠ .vList []) ∧
    (∀ k v, (k, v) ∈ m.dict →
      (k ≠ "facility" ∧ k ≠ "appname" ∧ k ≠ "severity" ∧ k ≠ "msg" ∧ k ≠ "version") →
      v ≠ .vNull → v ≠ .vDict [] → v ≠ .vList [] →
      (k, v) ∈ syslog_fields m.dict) := by
  constructor
  · intro k v hm
    rw [syslog_fields, List.mem_filter] at hm
    obtain ⟨-, hp⟩ := hm
    simp only [Bool.and_eq_true, Bool.not_eq_true'] at hp
    obtain ⟨hv, hk⟩ := hp
    refine ⟨?_, (isEmptySentinel_eq_false v).mp hv⟩
    simpa [excluded_keys, not_or] using hk
  · intro k v hm hk h1 h2 h3
    rw [syslog_fields, List.mem_filter]
    refine ⟨hm, ?_⟩
    simp only [Bool.and_eq_true, Bool.not_eq_true']
    refine ⟨(isEmptySentinel_eq_false v).mpr ⟨h1, h2, h3⟩, ?_⟩
    simpa [excluded_keys, not_or] using hk

/-- A parsed dictionary mixing kept and dropped entries. -/
def mMixed : SyslogMessage :=
  ⟨.info, "m",
    [("hostname", .vStr "h"), ("facility", .vStr "auth"),
     ("sd", .vDict []), ("version", .vInt 1)]⟩

theorem syslog_fields_projection_witness :
    ("hostname", Value.vStr "h") ∈ syslog_fields mMixed.dict ∧
    ("hostname" : String) ≠ "facility" := by
  constructor
  · exact (syslog_fields_projection mMixed).2 "hostname" (.vStr "h")
      (by simp [mMixed]) (by refine ⟨?_, ?_, ?_, ?_, ?_⟩ <;> decide)
      (by simp) (by simp) (by simp)
  · exact ((syslog_fields_projection mMixed).1 "hostname" (.vStr "h")
      (by simp [mMixed, syslog_fields, excluded_keys, Value.isEmptySentinel])).1.1

/-- An outbound payload with a foreign logger and no logentry key. -/
def badShapeEvent : Event := ⟨some "myapp", none, none, none, none, none, []⟩

/-- Claim C6 (failing input): on an event whose logger is foreign but which
lacks the logentry key, process_syslog_fields raises KeyError instead of
passing the event through. -/
theorem process_syslog_fields_raises_on_missing_logentry :
    process_syslog_fields badShapeEvent = .error (.keyError "logentry") := by
  rfl

/-- Events from the module logger pass through process_syslog_fields
unchanged. -/
theorem process_guard (e : Event) (h : e.logger = some logger.name) :
    process_syslog_fields e = .ok e := by
  unfold process_syslog_fields
  rw [h]
  simp

/-- Claim C8: an outbound event whose logger equals the internal diagnostic
logger identity is returned with every field unchanged. -/
theorem process_syslog_fields_self_origin_guard (e : Event)
    (h : e.logger = some logger.name) :
    process_syslog_fields e = .ok e :=
  process_guard e h

/-- A diagnostic payload originating from the module logger. -/
def diagEvent : Event :=
  ⟨some "sentrysyslog", none, some (.vStr "h0"), some (.vStr "t0"),
   some ⟨some (.vStr "oops"), some [("hostname", .vStr "x")], []⟩, none, []⟩

theorem process_syslog_fields_self_origin_guard_witness :
    process_syslog_fields diagEvent = .ok diagEvent :=
  process_syslog_fields_self_origin_guard diagEvent rfl

theorem lookupK_eraseK_self (k : String) (d : List (String × Value)) :
    lookupK k (eraseK k d) = none := by
  induction d with
  | nil => rfl
  | cons kv rest ih =>
    by_cases h : kv.1 = k
    · simp [eraseK, h, ih]
    · simp [eraseK, lookupK, h, ih]

theorem lookupK_eraseK_ne (k k' : String) (h : k ≠ k')
    (d : List (String × Value)) :
    lookupK k (eraseK k' d) = lookupK k d := by
  induction d with
  | nil => rfl
  | cons kv rest ih =>
    obtain ⟨a, b⟩ := kv
    by_cases h1 : a = k'
    · subst h1
      simp [eraseK, lookupK, ih, Ne.symm h]
    · simp [eraseK, lookupK, h1, ih]

theorem eraseK_idem (k : String) (d : List (String × Value)) :
    eraseK k (eraseK k d) = eraseK k d := by
  induction d with
  | nil => rfl
  | cons kv rest ih =>
    by_cases h : kv.1 = k
    · simp [eraseK, h, ih]
    · simp [eraseK, h, ih]

theorem eraseK_comm (k k' : String) (d : List (String × Value)) :
    eraseK k (eraseK k' d) = eraseK k' (eraseK k d) := by
  induction d with
  | nil => rfl
  | cons kv rest ih =>
    obtain ⟨a, b⟩ := kv
    by_cases h1 : a = k' <;> by_cases h2 : a = k
    · subst h1; subst h2; rfl
    · subst h1
      simp [eraseK, h2, ih]
    · subst h2
      simp [eraseK, h1, ih]
    · simp [eraseK, h1, h2, ih]

theorem eraseK_of_lookupK_none (k : String) (d : List (String × Value))
    (h : lookupK k d = none) : eraseK k d = d := by
  induction d with
  | nil => rfl
  | cons kv rest ih =>
    by_cases h1 : kv.1 = k
    · simp [lookupK, h1] at h
    · simp only [lookupK, if_neg h1] at h
      simp [eraseK, h1, ih h]

theorem mem_eraseK (k : String) (d : List (String × Value))
    (p : String × Value) :
    p ∈ eraseK k d ↔ p ∈ d ∧ p.1 ≠ k := by
  induction d with
  | nil => simp [eraseK]
  | cons kv rest ih =>
    by_cases h1 : kv.1 = k
    · simp only [eraseK, if_pos h1, ih, List.mem_cons]
      constructor
      · exact fun hp => ⟨Or.inr hp.1, hp.2⟩
      · rintro ⟨hp | hp, hne⟩
        · subst hp; exact absurd h1 hne
        · exact ⟨hp, hne⟩
    · simp only [eraseK, if_neg h1, List.mem_cons, ih]
      constructor
      · rintro (hp | ⟨hp, hne⟩)
        · subst hp; exact ⟨Or.inl rfl, h1⟩
        · exact ⟨Or.inr hp, hne⟩
      · rintro ⟨hp | hp, hne⟩
        · exact Or.inl hp
        · exact Or.inr ⟨hp, hne⟩

theorem popD_eq (k : String) (d : List (String × Value)) (dflt : Value) :
    popD k d dflt = ((lookupK k d).getD dflt, eraseK k d) := by
  unfold popD
  cases h : lookupK k d with
  | none => simp [eraseK_of_lookupK_none k d h]
  | some v => simp

theorem procBreadcrumb_ok (b : Breadcrumb) (d : List (String × Value))
    (t : Value) (hd : b.data = some d) (ht : b.timestamp = some t) :
    procBreadcrumb b = .ok (bcRewrite b) := by
  obtain ⟨bt, bd, br⟩ := b
  simp only at hd ht
  subst hd; subst ht
  simp [procBreadcrumb, bcRewrite, popD_eq]

theorem procBreadcrumb_ok_shape (b b' : Breadcrumb)
    (h : procBreadcrumb b = .ok b') :
    b.data.isSome = true ∧ b.timestamp.isSome = true := by
  obtain ⟨bt, bd, br⟩ := b
  cases bd with
  | none => simp [procBreadcrumb] at h
  | some d =>
    cases bt with
    | none => simp [procBreadcrumb] at h
    | some t => simp

theorem procBreadcrumbs_ok (l : List Breadcrumb)
    (h : ∀ b ∈ l, b.data.isSome = true ∧ b.timestamp.isSome = true) :
    procBreadcrumbs l = .ok (l.map bcRewrite) := by
  induction l with
  | nil => rfl
  | cons b rest ih =>
    obtain ⟨hd, ht⟩ := h b (List.mem_cons_self b rest)
    obtain ⟨d, hd⟩ := Option.isSome_iff_exists.mp hd
    obtain ⟨t, ht⟩ := Option.isSome_iff_exists.mp ht
    rw [procBreadcrumbs, procBreadcrumb_ok b d t hd ht,
      ih (fun x hx => h x (List.mem_cons_of_mem b hx))]
    rfl

theorem procBreadcrumbs_ok_shape (l l' : List Breadcrumb)
    (h : procBreadcrumbs l = .ok l') :
    ∀ b ∈ l, b.data.isSome = true ∧ b.timestamp.isSome = true := by
  induction l generalizing l' with
  | nil => simp
  | cons b rest ih =>
    intro x hx
    rw [procBreadcrumbs] at h
    cases h1 : procBreadcrumb b with
    | error e => rw [h1] at h; exact absurd h (by simp)
    | ok b' =>
      rw [h1] at h
      cases h2 : procBreadcrumbs rest with
      | error e => rw [h2] at h; exact absurd h (by simp)
      | ok rest' =>
        rcases List.mem_cons.mp hx with hx | hx
        · subst hx; exact procBreadcrumb_ok_shape x b' h1
        · exact ih rest' h2 x hx

/-- The full effect of process_syslog_fields on a well-shaped foreign event:
platform is tagged, hostname and timestamp are popped out of the logentry
params into server_name and the top-level timestamp, and every breadcrumb is
rewritten in place. -/
theorem process_ok_of_shape (e : Event) (lg : String) (le : LogEntry)
    (ps : List (String × Value)) (sn ts : Value)
    (hlg : e.logger = some lg) (hne : lg ≠ logger.name)
    (hle : e.logentry = some le) (hps : le.params = some ps)
    (hsn : e.server_name = some sn) (hts : e.timestamp = some ts)
    (hbc : ∀ b ∈ e.breadcrumbs.getD [],
      b.data.isSome = true ∧ b.timestamp.isSome = true) :
    process_syslog_fields e = .ok
      { e with
        platform := some (.vStr "syslog"),
        server_name := some ((lookupK "hostname" ps).getD sn),
        timestamp := some ((lookupK "timestamp" (eraseK "hostname" ps)).getD ts),
        logentry := some { le with
          params := some (eraseK "timestamp" (eraseK "hostname" ps)) },
        breadcrumbs := e.breadcrumbs.map (fun bl => bl.map bcRewrite) } := by
  obtain ⟨l0, p0, s0, t0, le0, b0, r0⟩ := e
  simp only at hlg hle hsn hts hbc
  subst hlg; subst hle; subst hsn; subst hts
  obtain ⟨lem, lep, ler⟩ := le
  simp only at hps
  subst hps
  cases b0 with
  | none =>
    simp [process_syslog_fields, if_neg hne, popD_eq]
  | some bcs =>
    have hb : procBreadcrumbs bcs = .ok (bcs.map bcRewrite) :=
      procBreadcrumbs_ok bcs (by simpa using hbc)
    simp [process_syslog_fields, if_neg hne, popD_eq, hb]

/-- Claim C2: on a well-shaped outbound event with a foreign logger, the
callback tags platform as "syslog", moves hostname out of the logentry params
into server_name (server_name untouched when hostname is absent), moves
timestamp out of the params into the top-level timestamp, and moves timestamp
out of each breadcrumb data mapping into the breadcrumb timestamp. -/
theorem process_syslog_fields_moves_fields (e : Event) (lg : String)
    (le : LogEntry) (ps : List (String × Value)) (sn ts : Value)
    (hlg : e.logger = some lg) (hne : lg ≠ logger.name)
    (hle : e.logentry = some le) (hps : le.params = some ps)
    (hsn : e.server_name = some sn) (hts : e.timestamp = some ts)
    (hbc : ∀ b ∈ e.breadcrumbs.getD [],
      b.data.isSome = true ∧ b.timestamp.isSome = true) :
    ∃ e', process_syslog_fields e = .ok e' ∧
      e'.platform = some (.vStr "syslog") ∧
      e'.server_name = some ((lookupK "hostname" ps).getD sn) ∧
      (lookupK "hostname" ps = none → e'.server_name = e.server_name) ∧
      e'.timestamp = some ((lookupK "timestamp" ps).getD ts) ∧
      e'.logentry = some { le with
        params := some (eraseK "timestamp" (eraseK "hostname" ps)) } ∧
      e'.breadcrumbs = e.breadcrumbs.map (fun bl => bl.map bcRewrite) ∧
      ∀ b ∈ e.breadcrumbs.getD [],
        (bcRewrite b).timestamp =
          some ((lookupK "timestamp" (b.data.getD [])).getD
            (b.timestamp.getD .vNull)) ∧
        (bcRewrite b).data = some (eraseK "timestamp" (b.data.getD [])) := by
  refine ⟨_, process_ok_of_shape e lg le ps sn ts hlg hne hle hps hsn hts hbc,
    rfl, rfl, ?_, ?_, rfl, rfl, fun b _ => ⟨rfl, rfl⟩⟩
  · intro hnone
    rw [hsn]
    simp [hnone]
  · rw [lookupK_eraseK_ne "timestamp" "hostname" (by decide) ps]

/-- The section 8 example payload: a foreign-logger event whose params carry
the syslog hostname and timestamp. -/
def e8 : Event :=
  ⟨some "myhost.myapp", none, some (.vStr "examplehost"),
   some (.vStr "capture-time"),
   some ⟨some (.vStr "message text"),
     some [("hostname", .vStr "myhost"),
           ("timestamp", .vStr "2021-01-01T00:00:00Z")], []⟩,
   none, []⟩

theorem process_syslog_fields_moves_fields_witness :
    ∃ e', process_syslog_fields e8 = .ok e' ∧
      e'.server_name = some (.vStr "myhost") ∧
      e'.timestamp = some (.vStr "2021-01-01T00:00:00Z") ∧
      e'.platform = some (.vStr "syslog") := by
  obtain ⟨e', hok, hplat, hsn, -, hts, -, -, -⟩ :=
    process_syslog_fields_moves_fields e8 "myhost.myapp" _ _ _ _ rfl
      (by decide) rfl rfl rfl rfl (by simp [e8])
  exact ⟨e', hok, by rw [hsn]; rfl, by rw [hts]; rfl, hplat⟩

/-- Inversion: a run of the callback that returns ok either hit the self
origin guard and returned the event itself, or the event was well shaped. -/
theorem process_ok_shape_inv (e e' : Event)
    (h : process_syslog_fields e = .ok e') :
    (e.logger = some logger.name ∧ e' = e) ∨
    (∃ lg le ps sn ts, e.logger = some lg ∧ lg ≠ logger.name ∧
      e.logentry = some le ∧ le.params = some ps ∧
      e.server_name = some sn ∧ e.timestamp = some ts ∧
      ∀ b ∈ e.breadcrumbs.getD [],
        b.data.isSome = true ∧ b.timestamp.isSome = true) := by
  unfold process_syslog_fields at h
  split at h
  · exact absurd h (by simp)
  rename_i lg hlg
  split at h
  · rename_i heq
    exact Or.inl ⟨heq ▸ hlg, (Except.ok.inj h).symm⟩
  rename_i hne
  split at h
  · exact absurd h (by simp)
  rename_i le hle
  split at h
  · exact absurd h (by simp)
  rename_i ps hps
  split at h
  · exact absurd h (by simp)
  rename_i sn hsn
  split at h
  · exact absurd h (by simp)
  rename_i ts hts
  split at h
  · rename_i hbc
    exact Or.inr ⟨lg, le, ps, sn, ts, hlg, hne, hle, hps, hsn, hts,
      by rw [hbc]; simp⟩
  rename_i bcs hbc
  split at h
  · exact absurd h (by simp)
  rename_i bcs' hpb
  exact Or.inr ⟨lg, le, ps, sn, ts, hlg, hne, hle, hps, hsn, hts,
    by rw [hbc]; simpa using procBreadcrumbs_ok_shape bcs bcs' hpb⟩

/-- A breadcrumb whose data has no timestamp key is a fixed point of the
breadcrumb rewrite. -/
theorem bcRewrite_fixpoint (b : Breadcrumb) (d : List (String × Value))
    (t : Value) (hd : b.data = some d) (ht : b.timestamp = some t)
    (hfix : lookupK "timestamp" d = none) : bcRewrite b = b := by
  obtain ⟨bt, bd, br⟩ := b
  simp only at hd ht
  subst hd; subst ht
  simp [bcRewrite, hfix, eraseK_of_lookupK_none _ _ hfix]

theorem map_bcRewrite_fixpoint (l : List Breadcrumb)
    (h : ∀ b ∈ l, b.data.isSome = true ∧ b.timestamp.isSome = true ∧
      lookupK "timestamp" (b.data.getD []) = none) :
    l.map bcRewrite = l := by
  induction l with
  | nil => rfl
  | cons b rest ih =>
    obtain ⟨hd, ht, hfix⟩ := h b (List.mem_cons_self b rest)
    obtain ⟨d, hd⟩ := Option.isSome_iff_exists.mp hd
    obtain ⟨t, ht⟩ := Option.isSome_iff_exists.mp ht
    rw [List.map_cons,
      bcRewrite_fixpoint b d t hd ht (by rw [hd] at hfix; simpa using hfix),
      ih (fun x hx => h x (List.mem_cons_of_mem b hx))]

/-- A well-shaped foreign event that already carries the rewritten values is
a fixed point of the callback. -/
theorem process_fixpoint (e : Event) (lg : String) (le : LogEntry)
    (ps : List (String × Value)) (sn ts : Value)
    (hlg : e.logger = some lg) (hne : lg ≠ logger.name)
    (hle : e.logentry = some le) (hps : le.params = some ps)
    (hsn : e.server_name = some sn) (hts : e.timestamp = some ts)
    (hplat : e.platform = some (.vStr "syslog"))
    (hhn : lookupK "hostname" ps = none)
    (htsp : lookupK "timestamp" ps = none)
    (hbshape : ∀ b ∈ e.breadcrumbs.getD [],
      b.data.isSome = true ∧ b.timestamp.isSome = true)
    (hbfix : ∀ b ∈ e.breadcrumbs.getD [],
      lookupK "timestamp" (b.data.getD []) = none) :
    process_syslog_fields e = .ok e := by
  rw [process_ok_of_shape e lg le ps sn ts hlg hne hle hps hsn hts hbshape]
  have hmap : e.breadcrumbs.map (fun bl => List.map bcRewrite bl) =
      e.breadcrumbs := by
    cases hb : e.breadcrumbs with
    | none => rfl
    | some bl =>
      rw [Option.map_some']
      rw [map_bcRewrite_fixpoint bl (fun b hb2 => ?_)]
      have hb3 : b ∈ e.breadcrumbs.getD [] := by rw [hb]; exact hb2
      exact ⟨(hbshape b hb3).1, (hbshape b hb3).2, hbfix b hb3⟩
  obtain ⟨l0, p0, s0, t0, le0, b0, r0⟩ := e
  simp only at hlg hplat hsn hts hle hmap
  subst hlg; subst hplat; subst hsn; subst hts; subst hle
  obtain ⟨lem, lep, ler⟩ := le
  simp only at hps
  subst hps
  rw [hhn, eraseK_of_lookupK_none _ _ hhn, htsp, eraseK_of_lookupK_none _ _ htsp]
  simp only [Option.getD_none]
  rw [hmap]

/-- Claim C7: the callback is idempotent on every payload it accepts, and a
pop with an absent key is a no-op returning the default. -/
theorem process_syslog_fields_idempotent (e e' : Event)
    (h : process_syslog_fields e = .ok e') :
    process_syslog_fields e' = .ok e' ∧
    (∀ k d dflt, lookupK k d = none → popD k d dflt = (dflt, d)) := by
  refine ⟨?_, fun k d dflt hnone => by simp [popD, hnone]⟩
  rcases process_ok_shape_inv e e' h with ⟨hlg, rfl⟩ |
    ⟨lg, le, ps, sn, ts, hlg, hne, hle, hps, hsn, hts, hbc⟩
  · exact process_guard _ hlg
  · have hchar := process_ok_of_shape e lg le ps sn ts hlg hne hle hps hsn hts hbc
    rw [hchar] at h
    replace h := Except.ok.inj h
    subst h
    have hbc2 : ∀ b ∈ (e.breadcrumbs.map (fun bl => List.map bcRewrite bl)).getD [],
        b.data.isSome = true ∧ b.timestamp.isSome = true := by
      cases e.breadcrumbs with
      | none => simp
      | some bl =>
        intro b hb
        simp only [Option.map_some', Option.getD_some] at hb
        obtain ⟨a, -, rfl⟩ := List.mem_map.mp hb
        exact ⟨rfl, rfl⟩
    have hbfix2 : ∀ b ∈ (e.breadcrumbs.map (fun bl => List.map bcRewrite bl)).getD [],
        lookupK "timestamp" (b.data.getD []) = none := by
      cases e.breadcrumbs with
      | none => simp
      | some bl =>
        intro b hb
        simp only [Option.map_some', Option.getD_some] at hb
        obtain ⟨a, -, rfl⟩ := List.mem_map.mp hb
        exact lookupK_eraseK_self _ _
    have e1 : lookupK "hostname" (eraseK "timestamp" (eraseK "hostname" ps)) = none := by
      rw [lookupK_eraseK_ne "hostname" "timestamp" (by decide)]
      exact lookupK_eraseK_self _ _
    exact process_fixpoint _ lg
      { le with params := some (eraseK "timestamp" (eraseK "hostname" ps)) }
      (eraseK "timestamp" (eraseK "hostname" ps))
      ((lookupK "hostname" ps).getD sn)
      ((lookupK "timestamp" (eraseK "hostname" ps)).getD ts)
      hlg hne rfl rfl rfl rfl rfl e1 (lookupK_eraseK_self _ _) hbc2 hbfix2

/-- The rewritten form of the section 8 example payload. -/
def e8r : Event :=
  ⟨some "myhost.myapp", some (.vStr "syslog"), some (.vStr "myhost"),
   some (.vStr "2021-01-01T00:00:00Z"),
   some ⟨some (.vStr "message text"), some [], []⟩, none, []⟩

theorem process_syslog_fields_idempotent_witness :
    process_syslog_fields e8 = .ok e8r ∧
    process_syslog_fields e8r = .ok e8r :=
  ⟨rfl, (process_syslog_fields_idempotent e8 e8r rfl).1⟩

/-- Claim C10: on a well-shaped foreign event the callback changes only the
platform, server_name and top-level timestamp fields, the hostname and
timestamp entries of the logentry params, and each breadcrumb timestamp and
breadcrumb data timestamp entry; every other part of the payload is kept. -/
theorem process_syslog_fields_frame (e : Event) (lg : String) (le : LogEntry)
    (ps : List (String × Value)) (sn ts : Value)
    (hlg : e.logger = some lg) (hne : lg ≠ logger.name)
    (hle : e.logentry = some le) (hps : le.params = some ps)
    (hsn : e.server_name = some sn) (hts : e.timestamp = some ts)
    (hbc : ∀ b ∈ e.breadcrumbs.getD [],
      b.data.isSome = true ∧ b.timestamp.isSome = true) :
    ∃ e', process_syslog_fields e = .ok e' ∧
      e'.logger = e.logger ∧
      e'.rest = e.rest ∧
      (∃ le', e'.logentry = some le' ∧ le'.message = le.message ∧
        le'.rest = le.rest ∧
        le'.params = some (eraseK "timestamp" (eraseK "hostname" ps)) ∧
        ∀ k v, k ≠ "hostname" → k ≠ "timestamp" →
          ((k, v) ∈ eraseK "timestamp" (eraseK "hostname" ps) ↔ (k, v) ∈ ps)) ∧
      e'.breadcrumbs = e.breadcrumbs.map (fun bl => bl.map bcRewrite) ∧
      (∀ b : Breadcrumb, (bcRewrite b).rest = b.rest ∧
        ∀ k v, k ≠ "timestamp" →
          ((k, v) ∈ (bcRewrite b).data.getD [] ↔ (k, v) ∈ b.data.getD [])) := by
  refine ⟨_, process_ok_of_shape e lg le ps sn ts hlg hne hle hps hsn hts hbc,
    rfl, rfl, ⟨_, rfl, rfl, rfl, rfl, ?_⟩, rfl, fun b => ⟨rfl, ?_⟩⟩
  · intro k v hk1 hk2
    simp [mem_eraseK, hk1, hk2]
  · intro k v hk
    simp [bcRewrite, mem_eraseK, hk]

/-- A foreign event with one breadcrumb, extra params and extra top-level
keys, used to exercise the frame property. -/
def eFrame : Event :=
  ⟨some "app", none, some (.vStr "old"), some (.vStr "t0"),
   some ⟨some (.vStr "tmpl"),
     some [("hostname", .vStr "h1"), ("pid", .vInt 5)], [("x", .vInt 7)]⟩,
   some [⟨some (.vStr "bt0"),
     some [("timestamp", .vStr "bt1"), ("y", .vInt 2)], [("z", .vInt 3)]⟩],
   [("level", .vStr "error")]⟩

theorem process_syslog_fields_frame_witness :
    ∃ e', process_syslog_fields eFrame = .ok e' ∧
      e'.logger = eFrame.logger ∧ e'.rest = eFrame.rest := by
  obtain ⟨e', hok, hlg2, hrest, -, -, -⟩ :=
    process_syslog_fields_frame eFrame "app" _ _ _ _ rfl (by decide)
      rfl rfl rfl rfl
      (by intro b hb
          simp only [eFrame, Option.getD_some, List.mem_singleton] at hb
          subst hb
          exact ⟨rfl, rfl⟩)
  exact ⟨e', hok, hlg2, hrest⟩

/-- Whether an Except value is ok. -/
def exceptIsOk {ε α : Type} : Except ε α → Bool
  | .ok _ => true
  | .error _ => false

/-- Whether an emitted record is a forwarded syslog record. -/
def isForwarded : Emitted → Bool
  | .forwarded _ => true
  | .diagnostic _ => false

/-- Whether an emitted record is an internal diagnostic report. -/
def isDiagnostic : Emitted → Bool
  | .forwarded _ => false
  | .diagnostic _ => true

theorem runStep_ok {ε : Type} (parse : String → Except ε SyslogMessage)
    (lvl : Nat) (l : String) (rest : List String) (m : SyslogMessage)
    (hp : parse (stripLast l) = .ok m) :
    ∃ r : LogRecord, run parse (l :: rest) lvl =
      Emitted.forwarded r :: run parse rest lvl := by
  have hred : log_syslog_line parse (stripLast l) lvl =
      if SyslogSeverityToPythonLevel m.severity ≥ lvl then
        .ok ([⟨SyslogSeverityToPythonLevel m.severity, m.msg,
              [syslog_fields m.dict], none⟩], m)
      else
        .ok ([⟨SyslogSeverityToPythonLevel m.severity, m.msg,
              [], some (syslog_fields m.dict)⟩], m) := by
    unfold log_syslog_line
    rw [hp]
  by_cases hc : SyslogSeverityToPythonLevel m.severity ≥ lvl
  · rw [if_pos hc] at hred
    refine ⟨⟨SyslogSeverityToPythonLevel m.severity, m.msg,
      [syslog_fields m.dict], none⟩, ?_⟩
    simp only [run, hred]
    rfl
  · rw [if_neg hc] at hred
    refine ⟨⟨SyslogSeverityToPythonLevel m.severity, m.msg,
      [], some (syslog_fields m.dict)⟩, ?_⟩
    simp only [run, hred]
    rfl

theorem runStep_err {ε : Type} (parse : String → Except ε SyslogMessage)
    (lvl : Nat) (l : String) (rest : List String) (ex : ε)
    (hp : parse (stripLast l) = .error ex) :
    run parse (l :: rest) lvl = Emitted.diagnostic l :: run parse rest lvl := by
  have hred : log_syslog_line parse (stripLast l) lvl = .error ex := by
    unfold log_syslog_line
    rw [hp]
  simp only [run, hred]
  rfl

theorem run_all_ok {ε : Type} (parse : String → Except ε SyslogMessage)
    (lvl : Nat) (xs : List String)
    (h : ∀ l ∈ xs, exceptIsOk (parse (stripLast l)) = true) :
    (run parse xs lvl).countP isForwarded = xs.length ∧
    (run parse xs lvl).filter isDiagnostic = [] ∧
    (run parse xs lvl).length = xs.length := by
  induction xs with
  | nil => exact ⟨rfl, rfl, rfl⟩
  | cons l rest ih =>
    have hl := h l (List.mem_cons_self l rest)
    obtain ⟨ih1, ih2, ih3⟩ := ih (fun x hx => h x (List.mem_cons_of_mem l hx))
    cases hp : parse (stripLast l) with
    | error ex => rw [hp] at hl; simp [exceptIsOk] at hl
    | ok m =>
      obtain ⟨r, hstep⟩ := runStep_ok parse lvl l rest m hp
      rw [hstep]
      refine ⟨?_, ?_, ?_⟩
      · simp [List.countP_cons, isForwarded, ih1]
      · simp [List.filter_cons, isDiagnostic, ih2]
      · simp [ih3]

/-- Claim C5: with one bad line among good ones, the loop forwards exactly
one record per good line, reports exactly one diagnostic carrying the raw bad
line, and processes every line to the end of input. -/
theorem run_isolates_bad_line {ε : Type} (parse : String → Except ε SyslogMessage)
    (lvl : Nat) (pre post : List String) (bad : String)
    (hpre : ∀ l ∈ pre, exceptIsOk (parse (stripLast l)) = true)
    (hpost : ∀ l ∈ post, exceptIsOk (parse (stripLast l)) = true)
    (hbad : exceptIsOk (parse (stripLast bad)) = false) :
    (run parse (pre ++ bad :: post) lvl).countP isForwarded =
      pre.length + post.length ∧
    (run parse (pre ++ bad :: post) lvl).filter isDiagnostic =
      [.diagnostic bad] ∧
    (run parse (pre ++ bad :: post) lvl).length =
      pre.length + post.length + 1 := by
  induction pre with
  | nil =>
    cases hp : parse (stripLast bad) with
    | ok m => rw [hp] at hbad; simp [exceptIsOk] at hbad
    | error ex =>
      rw [List.nil_append, runStep_err parse lvl bad post ex hp]
      obtain ⟨h1, h2, h3⟩ := run_all_ok parse lvl post hpost
      refine ⟨?_, ?_, ?_⟩
      · simp [List.countP_cons, isForwarded, h1]
      · simp [List.filter_cons, isDiagnostic, h2]
      · simp [h3]
  | cons l pre' ih =>
    have hl := hpre l (List.mem_cons_self l pre')
    cases hp : parse (stripLast l) with
    | error ex => rw [hp] at hl; simp [exceptIsOk] at hl
    | ok m =>
      obtain ⟨ih1, ih2, ih3⟩ := ih (fun x hx => hpre x (List.mem_cons_of_mem l hx))
      obtain ⟨r, hstep⟩ := runStep_ok parse lvl l (pre' ++ bad :: post) m hp
      rw [List.cons_append, hstep]
      refine ⟨?_, ?_, ?_⟩
      · have hc2 : (Emitted.forwarded r ::
            run parse (pre' ++ bad :: post) lvl).countP isForwarded =
            (run parse (pre' ++ bad :: post) lvl).countP isForwarded + 1 := by
          simp [List.countP_cons, isForwarded]
        rw [hc2, ih1, List.length_cons]
        omega
      · have hf2 : (Emitted.forwarded r ::
            run parse (pre' ++ bad :: post) lvl).filter isDiagnostic =
            (run parse (pre' ++ bad :: post) lvl).filter isDiagnostic := by
          simp [List.filter_cons, isDiagnostic]
        rw [hf2, ih2]
      · rw [List.length_cons, ih3, List.length_cons]
        omega

/-- A parse collaborator failing exactly on the content "bad". -/
def failingParse : String → Except Unit SyslogMessage :=
  fun s => if s = "bad" then .error () else .ok ⟨.info, s, []⟩

theorem run_isolates_bad_line_witness :
    exceptIsOk (failingParse (stripLast "bad\n")) = false ∧
    (run failingParse ["a\n", "bad\n", "b\n"] ERROR).countP isForwarded = 2 ∧
    (run failingParse ["a\n", "bad\n", "b\n"] ERROR).filter isDiagnostic =
      [.diagnostic "bad\n"] := by
  have h := run_isolates_bad_line failingParse ERROR ["a\n"] ["b\n"] "bad\n"
    (by decide) (by decide) (by decide)
  exact ⟨by decide, h.1, h.2.1⟩

/-- A parse collaborator echoing its input back as the message text, making
the string handed to the transformer observable in the emitted record. -/
def echoParse : String → Except Unit SyslogMessage :=
  fun s => .ok ⟨.info, s, []⟩

/-- The message text of an emitted record. -/
def emittedMsg : Emitted → String
  | .forwarded r => r.msg
  | .diagnostic s => s

/-- Claim C9 (counterexample): on the final line "abc" with no trailing
terminator, the transformer receives "ab", not the intact content "abc". -/
theorem run_truncates_unterminated_line :
    (run echoParse ["abc"] ERROR).map emittedMsg = ["ab"] ∧
    ("ab" : String) ≠ "abc" :=
  ⟨rfl, by decide⟩

/-- Claim C9 (amended): run hands the transformer every line with its final
character removed; when the line ends with a newline terminator this is
exactly the line content. -/
theorem run_passes_lines_without_last_char :
    (∀ input : List String, run echoParse input ERROR =
      input.map (fun l => .forwarded ⟨INFO, stripLast l, [], some []⟩)) ∧
    (∀ s : String, stripLast (s ++ "\n") = s) := by
  constructor
  · intro input
    induction input with
    | nil => rfl
    | cons l rest ih =>
      have hll : log_syslog_line echoParse (stripLast l) ERROR =
          .ok ([⟨INFO, stripLast l, [], some []⟩],
            ⟨.info, stripLast l, []⟩) := rfl
      simp only [run, hll, List.map_cons, List.map_nil, List.nil_append,
        List.singleton_append]
      rw [ih]
  · intro s
    cases s with
    | mk d =>
      show String.mk ((d ++ ['\n']).dropLast) = String.mk d
      rw [List.dropLast_concat]
